import Mathlib

/-!
Verification of the ratcave coordinates module (src/ratcave/coordinates.py)
against its natural-language specification.

The Python source is shallowly embedded: float32 components are modelled as
exact numbers (real numbers where trigonometric or square-root primitives
occur, rationals are not needed since the accessor machinery is generic in
the component type); Python exceptions are modelled with Except; the external
scipy rotation primitive (spec section 6, a consumed capability) is an
uninterpreted function parameter; aliasing questions are settled over an
explicit object store.
-/

namespace Ratcave

/-- Python exception classes raised by the module: AttributeError carries the
missing attribute name, ValueError carries its message, AssertionError comes
from a failed assert statement. -/
inductive PyErr where
  | attributeError (attr : String)
  | valueError (msg : String)
  | assertionError
deriving DecidableEq

/-- True exactly when an Except value is an error (the Python call raised). -/
def isErr {ε α : Type} : Except ε α → Bool
  | .error _ => true
  | .ok _ => false

/-- A three-component value (the numeric vector of Translation, Scale and the
Euler rotations, source line 15: the constructor stores its arguments as the
internal array). -/
structure V3 where
  x : ℝ
  y : ℝ
  z : ℝ

/-- Builds a V3 from a list of at least three numbers, in order (models the
starred constructor call on a length-3 tuple). -/
def V3.ofList (l : List ℝ) : V3 :=
  ⟨l.getD 0 0, l.getD 1 0, l.getD 2 0⟩

/-- The tuple returned by the generated xyz accessor: components in the
requested order x, y, z (source lines 30-31). -/
def V3.xyzList (t : V3) : List ℝ := [t.x, t.y, t.z]

/-! ## Translation arithmetic (source lines 170-196)

The second operand of add/sub is either another Translation or a bare
sequence; Translation objects always hold exactly three components
(the constructor assert at line 173). -/

/-- The right operand of Translation add/sub: another Translation or a bare
Python sequence of numbers (source lines 177 and 183 branch on
isinstance(other, Translation)). -/
inductive TransOperand where
  | trans (t : V3)
  | seq (l : List ℝ)

/-- The value the source binds to oth: other.xyz for a Translation, the bare
sequence itself otherwise (source line 183). -/
def TransOperand.othList : TransOperand → List ℝ
  | .trans t => t.xyzList
  | .seq l => l

/-- Embedding of Translation.__sub__ (source lines 182-186). After the length
check on oth, the subtraction zips self.xyz with other.xyz — an attribute
lookup on the raw operand, which fails with AttributeError when the operand is
a bare sequence rather than a Translation. -/
def Translation.sub (self : V3) (other : TransOperand) : Except PyErr V3 :=
  let oth := other.othList
  if oth.length ≠ 3 then .error (.valueError "Other must have length of 3")
  else
    match other with
    | .seq _ => .error (.attributeError "xyz")
    | .trans t =>
        .ok (V3.ofList (List.zipWith (fun a b => a - b) self.xyzList t.xyzList))

/-- Embedding of Translation.__add__ (source lines 176-180), which zips with
oth and therefore does accept a bare length-3 sequence. -/
def Translation.add (self : V3) (other : TransOperand) : Except PyErr V3 :=
  let oth := other.othList
  if oth.length ≠ 3 then .error (.valueError "Other must have length of 3")
  else .ok (V3.ofList (List.zipWith (fun a b => a + b) self.xyzList oth))

/-- C3: for a Translation right operand the difference is elementwise and is
returned as a new Translation; but for a bare length-3 sequence the claimed
elementwise result is never produced — the attribute access other.xyz on the
sequence raises AttributeError (source line 186 uses other.xyz where line 183
computed oth); a wrong-length operand still raises the ValueError first. -/
theorem translation_sub_bare_seq_attribute_error :
    (∀ s t : V3, Translation.sub s (.trans t) =
      .ok ⟨s.x - t.x, s.y - t.y, s.z - t.z⟩) ∧
    Translation.sub ⟨1, 2, 3⟩ (.seq [4, 5, 6]) = .error (.attributeError "xyz") ∧
    Translation.sub ⟨1, 2, 3⟩ (.seq [4, 5]) =
      .error (.valueError "Other must have length of 3") := by
  refine ⟨fun s t => ?_, rfl, rfl⟩
  simp [Translation.sub, TransOperand.othList, V3.xyzList, V3.ofList]

/-! ## Coordinates named accessors (source lines 22-42)

The class generates, for every ordered possibly-repeating sequence of axis
letters of length 1..N, a getter and a setter over the internal array. The
machinery is generic in the component type and the axis map: an axis map is a
function from letters to storage indices. The getter gathers the indexed
components in requested order (line 31); the setter is a numpy fancy-index
assignment arr[indices] = value, which writes the value components to the
indices one by one in written order, so a repeated index keeps the last
value written (line 34). -/

/-- The axis map of the three-component entities: x to 0, y to 1, z to 2
(source line 10). -/
def xyzIdx : Char → Fin 3 :=
  fun c => if c = 'x' then 0 else if c = 'y' then 1 else 2

/-- The axis map of RotationQuaternion: w to 0, x to 1, y to 2, z to 3
(source line 141). -/
def wxyzIdx : Char → Fin 4 :=
  fun c => if c = 'w' then 0 else if c = 'x' then 1 else if c = 'y' then 2 else 3

/-- The gathered components at the letters of P, in the requested order
(source line 31, the fancy-index read self._array[indices]). -/
def cget {α : Type} {n : ℕ} (idx : Char → Fin n) (P : List Char)
    (arr : Fin n → α) : List α :=
  P.map (fun c => arr (idx c))

/-- The array after the fancy-index assignment setitem(self._array, indices,
value) (source line 34): the value components are written to the letter
indices in written order. -/
def cset {α : Type} {n : ℕ} (idx : Char → Fin n) (P : List Char) (v : List α)
    (arr : Fin n → α) : Fin n → α :=
  (P.zip v).foldl (fun a cv => Function.update a (idx cv.1) cv.2) arr

/-- The value a generated getter returns: a bare scalar when the accessor
name has one letter, a tuple otherwise (source line 31). -/
inductive GetResult (α : Type) where
  | scalar (value : α)
  | tup (values : List α)

/-- Embedding of the generated getter (source lines 30-31). -/
def coordGetter {α : Type} {n : ℕ} (idx : Char → Fin n) (P : List Char)
    (arr : Fin n → α) : GetResult α :=
  if P.length > 1 then .tup (cget idx P arr) else .scalar (arr (idx (P.headD 'x')))

/-- An observable event of the setter: the change notification, carrying the
array state at the moment notify_observers() runs. -/
inductive SetEvent (α : Type) (n : ℕ) where
  | notify (snapshot : Fin n → α)

/-- Embedding of the generated setter (source lines 33-36): the body is the
fancy-index write followed by a single notify_observers() call, so the call
returns the written array and emits exactly one notification, carrying the
post-write state. -/
def coordSetter {α : Type} {n : ℕ} (idx : Char → Fin n) (P : List Char)
    (v : List α) (arr : Fin n → α) : (Fin n → α) × List (SetEvent α n) :=
  let written := cset idx P v arr
  (written, [SetEvent.notify written])

/-- A fold of updates leaves an index untouched by every write unchanged. -/
theorem foldl_update_notin {α : Type} {n : ℕ} (idx : Char → Fin n)
    (pv : List (Char × α)) (arr : Fin n → α) (k : Fin n)
    (h : ∀ p ∈ pv, idx p.1 ≠ k) :
    (pv.foldl (fun a cv => Function.update a (idx cv.1) cv.2) arr) k = arr k := by
  induction pv generalizing arr with
  | nil => rfl
  | cons hd tl ih =>
      rw [List.foldl_cons, ih _ (fun p hp => h p (List.mem_cons_of_mem _ hp))]
      exact Function.update_noteq (Ne.symm (h hd (List.mem_cons_self _ _))) _ _

/-- A fold of updates realizes last-write-wins: the final value at an index
is the value of the last write hitting it, and the original value when no
write hits it. -/
theorem foldl_update_eq_find {α : Type} {n : ℕ} (idx : Char → Fin n)
    (pv : List (Char × α)) (arr : Fin n → α) (k : Fin n) :
    (pv.foldl (fun a cv => Function.update a (idx cv.1) cv.2) arr) k =
      (((pv.reverse.find? (fun cv => idx cv.1 = k)).map Prod.snd).getD (arr k)) := by
  induction pv generalizing arr with
  | nil => rfl
  | cons hd tl ih =>
      rw [List.foldl_cons, ih, List.reverse_cons, List.find?_append]
      cases hfind : tl.reverse.find? (fun cv => decide (idx cv.1 = k)) with
      | some y => rfl
      | none =>
          by_cases hk : idx hd.1 = k
          · subst hk
            simp [List.find?, Function.update_same]
          · simp [List.find?, hk, Function.update_noteq (Ne.symm hk)]

/-- When the letters of an accessor name are pairwise distinct (under the
axis map), a get after a set of a matching-length value returns that value. -/
theorem cget_cset_nodup {α : Type} {n : ℕ} (idx : Char → Fin n) :
    ∀ (P : List Char) (v : List α) (arr : Fin n → α),
      (∀ c ∈ P, ∀ d ∈ P, idx c = idx d → c = d) → P.Nodup →
      v.length = P.length → cget idx P (cset idx P v arr) = v := by
  intro P
  induction P with
  | nil =>
      intro v arr _ _ hlen
      cases v with
      | nil => rfl
      | cons w v => exact absurd hlen (by simp)
  | cons c P ih =>
      intro v arr hinj hnd hlen
      cases v with
      | nil => exact absurd hlen (by simp)
      | cons w v =>
          have hstep : cset idx (c :: P) (w :: v) arr =
              cset idx P v (Function.update arr (idx c) w) := rfl
          have hcP : c ∉ P := (List.nodup_cons.mp hnd).1
          have hhead : cset idx P v (Function.update arr (idx c) w) (idx c) = w := by
            rw [cset, foldl_update_notin]
            · exact Function.update_same _ _ _
            · intro p hp hpc
              have hp1 : p.1 ∈ P := (List.of_mem_zip hp).1
              have : p.1 = c :=
                hinj p.1 (List.mem_cons_of_mem _ hp1) c (List.mem_cons_self _ _) hpc
              exact hcP (this ▸ hp1)
          have htail : cget idx P (cset idx P v (Function.update arr (idx c) w)) = v :=
            ih v (Function.update arr (idx c) w)
              (fun a ha b hb => hinj a (List.mem_cons_of_mem _ ha)
                b (List.mem_cons_of_mem _ hb))
              (List.nodup_cons.mp hnd).2 (by simpa using hlen)
          calc cget idx (c :: P) (cset idx (c :: P) (w :: v) arr)
              = cset idx P v (Function.update arr (idx c) w) (idx c) ::
                  cget idx P (cset idx P v (Function.update arr (idx c) w)) := by
                rw [hstep]; rfl
            _ = w :: v := by rw [hhead, htail]

/-- C5 (main theorem): over any axis map, a generated getter gathers the
components at the requested letters in exactly the requested order, as a
scalar for a one-letter name and a tuple otherwise; after a set of a
matching-length value, the component read back at each position is the value
written by the last occurrence of that position's letter (last-write-wins in
written order), hence when the letters of the accessor are distinct the get
after the set returns exactly the value that was set. -/
theorem coord_accessor_get_set_roundtrip {α : Type} {n : ℕ} (idx : Char → Fin n)
    (P : List Char) (v : List α) (arr : Fin n → α)
    (hinj : ∀ c ∈ P, ∀ d ∈ P, idx c = idx d → c = d)
    (hlen : v.length = P.length) :
    (cget idx P arr = P.map (fun c => arr (idx c))) ∧
    (P.length = 1 → coordGetter idx P arr = .scalar (arr (idx (P.headD 'x')))) ∧
    (1 < P.length → coordGetter idx P arr = .tup (cget idx P arr)) ∧
    (∀ (i : ℕ) (c : Char), P[i]? = some c →
      (cget idx P (cset idx P v arr))[i]? =
        ((P.zip v).reverse.find? (fun cv => idx cv.1 = idx c)).map Prod.snd) ∧
    (P.Nodup → cget idx P (cset idx P v arr) = v) := by
  refine ⟨rfl, ?_, ?_, ?_, ?_⟩
  · intro h1
    rw [coordGetter, if_neg (by omega)]
  · intro h1
    rw [coordGetter, if_pos h1]
  · intro i c hc
    have hi : i < P.length := by
      rcases List.getElem?_eq_some_iff.mp hc with ⟨h, _⟩
      exact h
    have hiv : i < v.length := by omega
    have hzip : (P.zip v)[i]? = some (c, v[i]) := by
      rw [List.getElem?_zip_eq_some]
      exact ⟨hc, List.getElem?_eq_some_iff.mpr ⟨hiv, rfl⟩⟩
    have hmem : (c, v[i]) ∈ (P.zip v).reverse :=
      List.mem_reverse.mpr (List.getElem?_mem hzip)
    have hsome : ((P.zip v).reverse.find? (fun cv => idx cv.1 = idx c)).isSome := by
      rw [List.find?_isSome]
      exact ⟨(c, v[i]), hmem, by simp⟩
    rcases Option.isSome_iff_exists.mp hsome with ⟨y, hy⟩
    have hval : cset idx P v arr (idx c) = y.2 := by
      have h2 := foldl_update_eq_find idx (P.zip v) arr (idx c)
      rw [hy] at h2
      exact h2
    simp only [cget, List.getElem?_map, hc, hy, Option.map_some']
    exact congrArg some hval
  · exact fun hnd => cget_cset_nodup idx P v arr hinj hnd hlen

/-- C5 (witness): with the xyz axis map, setting the accessor zx to (5, 7)
and reading zx back yields (5, 7). -/
theorem coord_accessor_get_set_roundtrip_witness :
    (∀ c ∈ (['z', 'x'] : List Char), ∀ d ∈ (['z', 'x'] : List Char),
      xyzIdx c = xyzIdx d → c = d) ∧
    ([(5 : ℚ), 7].length = (['z', 'x'] : List Char).length) ∧
    (['z', 'x'] : List Char).Nodup ∧
    cget xyzIdx ['z', 'x'] (cset xyzIdx ['z', 'x'] [(5 : ℚ), 7] ![1, 2, 3]) = [5, 7] :=
  ⟨by decide, by decide, by decide,
    (coord_accessor_get_set_roundtrip xyzIdx ['z', 'x'] [(5 : ℚ), 7] ![1, 2, 3]
      (by decide) (by decide)).2.2.2.2 (by decide)⟩

/-- C9: a single call of a generated setter performs the component write and
emits exactly one change notification, synchronously carrying the post-write
array state, and leaves every component whose index no letter of the accessor
name addresses unchanged (no other side effect on the entity). -/
theorem coord_setter_single_notification {α : Type} {n : ℕ} (idx : Char → Fin n)
    (P : List Char) (v : List α) (arr : Fin n → α) (k : Fin n)
    (hk : ∀ c ∈ P, idx c ≠ k) :
    (coordSetter idx P v arr).2.length = 1 ∧
    (coordSetter idx P v arr).2 = [SetEvent.notify (cset idx P v arr)] ∧
    (coordSetter idx P v arr).1 k = arr k :=
  ⟨rfl, rfl,
    foldl_update_notin idx (P.zip v) arr k
      (fun p hp => hk p.1 (List.of_mem_zip hp).1)⟩

/-- C9 (witness): writing the xy accessor of a three-component entity emits
one notification with the post-write state and leaves the z component at its
old value. -/
theorem coord_setter_single_notification_witness :
    (∀ c ∈ (['x', 'y'] : List Char), xyzIdx c ≠ 2) ∧
    ((coordSetter xyzIdx ['x', 'y'] [(5 : ℚ), 7] ![1, 2, 3]).2.length = 1 ∧
     (coordSetter xyzIdx ['x', 'y'] [(5 : ℚ), 7] ![1, 2, 3]).2 =
       [SetEvent.notify (cset xyzIdx ['x', 'y'] [(5 : ℚ), 7] ![1, 2, 3])] ∧
     (coordSetter xyzIdx ['x', 'y'] [(5 : ℚ), 7] ![1, 2, 3]).1 2 = ![1, 2, 3] 2) :=
  ⟨by decide,
    coord_setter_single_notification xyzIdx ['x', 'y'] [(5 : ℚ), 7] ![1, 2, 3] 2
      (by decide)⟩

/-! ## Matrices

A 3x3 and a 4x4 real matrix with named entries (row then column), enough for
the literal arithmetic the source performs on numpy arrays. -/

/-- A 3x3 real matrix with entries named by row and column. -/
structure M3 where
  m00 : ℝ
  m01 : ℝ
  m02 : ℝ
  m10 : ℝ
  m11 : ℝ
  m12 : ℝ
  m20 : ℝ
  m21 : ℝ
  m22 : ℝ

instance : Add M3 :=
  ⟨fun A B => ⟨A.m00 + B.m00, A.m01 + B.m01, A.m02 + B.m02,
    A.m10 + B.m10, A.m11 + B.m11, A.m12 + B.m12,
    A.m20 + B.m20, A.m21 + B.m21, A.m22 + B.m22⟩⟩

/-- The 3x3 identity, np.identity(3). -/
instance : One M3 := ⟨⟨1, 0, 0, 0, 1, 0, 0, 0, 1⟩⟩

/-- Matrix product, np.dot on two 3x3 arrays. -/
instance : Mul M3 :=
  ⟨fun A B =>
    ⟨A.m00 * B.m00 + A.m01 * B.m10 + A.m02 * B.m20,
     A.m00 * B.m01 + A.m01 * B.m11 + A.m02 * B.m21,
     A.m00 * B.m02 + A.m01 * B.m12 + A.m02 * B.m22,
     A.m10 * B.m00 + A.m11 * B.m10 + A.m12 * B.m20,
     A.m10 * B.m01 + A.m11 * B.m11 + A.m12 * B.m21,
     A.m10 * B.m02 + A.m11 * B.m12 + A.m12 * B.m22,
     A.m20 * B.m00 + A.m21 * B.m10 + A.m22 * B.m20,
     A.m20 * B.m01 + A.m21 * B.m11 + A.m22 * B.m21,
     A.m20 * B.m02 + A.m21 * B.m12 + A.m22 * B.m22⟩⟩

/-- Elementwise scaling of a 3x3 matrix by a scalar. -/
instance : SMul ℝ M3 :=
  ⟨fun c A => ⟨c * A.m00, c * A.m01, c * A.m02, c * A.m10, c * A.m11, c * A.m12,
    c * A.m20, c * A.m21, c * A.m22⟩⟩

/-- A 4x4 real matrix with entries named by row and column. -/
structure M4 where
  m00 : ℝ
  m01 : ℝ
  m02 : ℝ
  m03 : ℝ
  m10 : ℝ
  m11 : ℝ
  m12 : ℝ
  m13 : ℝ
  m20 : ℝ
  m21 : ℝ
  m22 : ℝ
  m23 : ℝ
  m30 : ℝ
  m31 : ℝ
  m32 : ℝ
  m33 : ℝ

/-- The top-left 3x3 block of a 4x4 matrix, matrix[:3, :3]. -/
def topLeft3 (m : M4) : M3 :=
  ⟨m.m00, m.m01, m.m02, m.m10, m.m11, m.m12, m.m20, m.m21, m.m22⟩

/-- The 4x4 identity with its top-left 3x3 block overwritten: the idiom
mat = np.eye(4); mat[:3, :3] = res (source lines 94-101 and 154-155). -/
def embed3 (m : M3) : M4 :=
  ⟨m.m00, m.m01, m.m02, 0, m.m10, m.m11, m.m12, 0, m.m20, m.m21, m.m22, 0,
    0, 0, 0, 1⟩

/-! ## Rotation variants (source lines 55-168)

Components are real numbers; the scipy rotation primitive (spec section 6, an
external consumed capability) appears as an uninterpreted function parameter
wherever a method calls it: the embedding only fixes which data is handed to
it and how its result is wrapped back into a typed entity. -/

/-- Python str.lower(), defined over the character list (String.map of core
Lean uses well-founded recursion, which concrete evaluation cannot unfold). -/
def pyLower (s : String) : String := String.mk (s.data.map Char.toLower)

/-- Conversion of numpy: np.degrees, radians to degrees. -/
noncomputable def np_degrees (x : ℝ) : ℝ := x * (180 / Real.pi)

/-- Conversion of numpy: np.radians, degrees to radians. -/
noncomputable def np_radians (x : ℝ) : ℝ := x * (Real.pi / 180)

/-- The value state of a RotationEulerRadians instance: three angle
components (the Coordinates array) and the axes spec bound by __init__
(source lines 77-79). -/
structure RotationEulerRadians where
  x : ℝ
  y : ℝ
  z : ℝ
  axes : String

/-- The value state of a RotationEulerDegrees instance. -/
structure RotationEulerDegrees where
  x : ℝ
  y : ℝ
  z : ℝ
  axes : String

/-- The value state of a RotationQuaternion instance: its four components in
storage order w, x, y, z (source lines 141-144). -/
structure RotationQuaternion where
  w : ℝ
  x : ℝ
  y : ℝ
  z : ℝ

/-- The result type of to_euler: one of the two Euler variants (source lines
106-109). -/
inductive EulerResult where
  | rad (e : RotationEulerRadians)
  | deg (e : RotationEulerDegrees)

/-- Python attribute lookup on a RotationEulerRadians instance, restricted to
string-valued attributes. The instance attributes are _array (numeric, bound
at source line 15) and axes (bound at line 79); the class itself carries only
the generated coordinate accessor properties, whose names are products of the
letters x, y, z (lines 39-42), and methods. Hence axes is the only
string-valued attribute and every other name raises AttributeError. -/
def RotationEulerRadians.getattrStr (self : RotationEulerRadians)
    (name : String) : Except PyErr String :=
  if name = "axes" then .ok self.axes else .error (.attributeError name)

/-- Source lines 84-85: to_radians on the radians variant returns self. -/
def RotationEulerRadians.to_radians (self : RotationEulerRadians) :
    RotationEulerRadians := self

/-- Source lines 87-88: to_degrees converts the components with np.degrees
and passes axes=self.axes along. -/
noncomputable def RotationEulerRadians.to_degrees (self : RotationEulerRadians) :
    RotationEulerDegrees :=
  ⟨np_degrees self.x, np_degrees self.y, np_degrees self.z, self.axes⟩

/-- Source lines 90-91: to_quaternion reads self._axes — an attribute that
does not exist (getattrStr above) — before it can hand the angles to the
scipy from_euler/as_quat primitive; the primitive result would be passed
positionally into the RotationQuaternion constructor. -/
def RotationEulerRadians.to_quaternion
    (fromEulerQuat : String → ℝ → ℝ → ℝ → ℝ × ℝ × ℝ × ℝ)
    (self : RotationEulerRadians) : Except PyErr RotationQuaternion :=
  match self.getattrStr "_axes" with
  | .error e => .error e
  | .ok ax =>
      let q := fromEulerQuat (ax.drop 1) self.x self.y self.z
      .ok ⟨q.1, q.2.1, q.2.2.1, q.2.2.2⟩

/-- Source lines 93-102: to_matrix hands self.axes[1:] and the angles to the
scipy from_euler/as_matrix primitive and embeds the 3x3 result into eye(4). -/
def RotationEulerRadians.to_matrix (fromEulerMatrix : String → ℝ → ℝ → ℝ → M3)
    (self : RotationEulerRadians) : M4 :=
  embed3 (fromEulerMatrix (self.axes.drop 1) self.x self.y self.z)

/-- Source lines 104-109: to_euler asserts the lowercased units string is rad
or deg, then returns a fresh instance of the requested variant carrying
axes=self.axes. -/
noncomputable def RotationEulerRadians.to_euler (self : RotationEulerRadians)
    (units : String) : Except PyErr EulerResult :=
  if pyLower units = "rad" ∨ pyLower units = "deg" then
    if pyLower units = "rad" then .ok (.rad ⟨self.x, self.y, self.z, self.axes⟩)
    else .ok (.deg ⟨np_degrees self.x, np_degrees self.y, np_degrees self.z,
      self.axes⟩)
  else .error .assertionError

/-- Source lines 111-114: from_matrix extracts Euler angles from the top-left
3x3 block according to axes[1:] (degrees flag false), then builds the
instance with cls(*coords) — the axes argument is not passed on, so __init__
applies its default "rxyz" (line 77). -/
def RotationEulerRadians.from_matrix
    (matrixAsEuler : M3 → String → Bool → ℝ × ℝ × ℝ) (matrix : M4)
    (axes : String) : RotationEulerRadians :=
  let coords := matrixAsEuler (topLeft3 matrix) (axes.drop 1) false
  ⟨coords.1, coords.2.1, coords.2.2, "rxyz"⟩

/-- Source lines 119-120: to_radians on the degrees variant converts with
np.radians and passes axes=self.axes along. -/
noncomputable def RotationEulerDegrees.to_radians (self : RotationEulerDegrees) :
    RotationEulerRadians :=
  ⟨np_radians self.x, np_radians self.y, np_radians self.z, self.axes⟩

/-- Source lines 122-123: to_degrees on the degrees variant returns self. -/
def RotationEulerDegrees.to_degrees (self : RotationEulerDegrees) :
    RotationEulerDegrees := self

/-- Source lines 125-126: the degrees variant routes to_quaternion through
the radians hub. -/
noncomputable def RotationEulerDegrees.to_quaternion
    (fromEulerQuat : String → ℝ → ℝ → ℝ → ℝ × ℝ × ℝ × ℝ)
    (self : RotationEulerDegrees) : Except PyErr RotationQuaternion :=
  RotationEulerRadians.to_quaternion fromEulerQuat self.to_radians

/-- Source lines 128-129: the degrees variant routes to_euler through the
radians hub. -/
noncomputable def RotationEulerDegrees.to_euler (self : RotationEulerDegrees)
    (units : String) : Except PyErr EulerResult :=
  RotationEulerRadians.to_euler self.to_radians units

/-- Source lines 134-137: from_matrix of the degrees variant, extraction with
the degrees flag true; cls(*coords) again drops the axes argument. -/
def RotationEulerDegrees.from_matrix
    (matrixAsEuler : M3 → String → Bool → ℝ × ℝ × ℝ) (matrix : M4)
    (axes : String) : RotationEulerDegrees :=
  let coords := matrixAsEuler (topLeft3 matrix) (axes.drop 1) true
  ⟨coords.1, coords.2.1, coords.2.2, "rxyz"⟩

/-- Source lines 150-151: to_quaternion on the quaternion variant returns
self. -/
def RotationQuaternion.to_quaternion (self : RotationQuaternion) :
    RotationQuaternion := self

/-- Source lines 153-156: to_matrix embeds the scipy from_quat/as_matrix
result into eye(4). -/
def RotationQuaternion.to_matrix (quatAsMatrix : RotationQuaternion → M3)
    (self : RotationQuaternion) : M4 :=
  embed3 (quatAsMatrix self)

/-- Source lines 158-164: to_euler first lets the scipy primitive extract xyz
Euler angles, then asserts the lowercased units string and wraps the result
in a fresh Euler instance whose axes spec is the constructor default. -/
noncomputable def RotationQuaternion.to_euler
    (quatAsEulerXyz : RotationQuaternion → ℝ × ℝ × ℝ)
    (self : RotationQuaternion) (units : String) : Except PyErr EulerResult :=
  let e := quatAsEulerXyz self
  if pyLower units = "rad" ∨ pyLower units = "deg" then
    if pyLower units = "rad" then .ok (.rad ⟨e.1, e.2.1, e.2.2, "rxyz"⟩)
    else .ok (.deg ⟨np_degrees e.1, np_degrees e.2.1, np_degrees e.2.2, "rxyz"⟩)
  else .error .assertionError

/-- C1: the quaternion round-trip property cannot hold for the Euler
variants, because their to_quaternion raises AttributeError on every
instance: line 91 reads self._axes while the constructor binds axes (the
neighbouring to_matrix at line 95 reads self.axes correctly). For the
quaternion variant, whose to_quaternion returns self, the top-left 3x3
blocks of X.to_quaternion().to_matrix() and X.to_matrix() coincide. -/
theorem to_quaternion_attribute_error :
    (∀ (prim : String → ℝ → ℝ → ℝ → ℝ × ℝ × ℝ × ℝ)
      (self : RotationEulerRadians),
      RotationEulerRadians.to_quaternion prim self =
        .error (.attributeError "_axes")) ∧
    (∀ (prim : String → ℝ → ℝ → ℝ → ℝ × ℝ × ℝ × ℝ)
      (self : RotationEulerDegrees),
      RotationEulerDegrees.to_quaternion prim self =
        .error (.attributeError "_axes")) ∧
    (∀ (prim : RotationQuaternion → M3) (self : RotationQuaternion),
      topLeft3 (RotationQuaternion.to_matrix prim self.to_quaternion) =
        topLeft3 (RotationQuaternion.to_matrix prim self)) :=
  ⟨fun _ _ => rfl, fun _ _ => rfl, fun _ _ => rfl⟩

/-- C2: conversions that yield another Euler instance do thread the axes spec
of the receiver, but from_matrix does not honor its axes argument: the
extracted angles follow the requested order, while the constructed instance
always records the constructor default "rxyz" (cls(*coords) at lines 114 and
137 omits the axes keyword). -/
theorem from_matrix_axes_defaulted :
    (∀ (prim : M3 → String → Bool → ℝ × ℝ × ℝ) (m : M4) (a : String),
      (RotationEulerRadians.from_matrix prim m a).axes = "rxyz") ∧
    (∀ (prim : M3 → String → Bool → ℝ × ℝ × ℝ) (m : M4) (a : String),
      (RotationEulerDegrees.from_matrix prim m a).axes = "rxyz") ∧
    (∀ self : RotationEulerRadians, self.to_degrees.axes = self.axes) ∧
    (∀ self : RotationEulerDegrees, self.to_radians.axes = self.axes) :=
  ⟨fun _ _ _ => rfl, fun _ _ _ => rfl, fun _ => rfl, fun _ => rfl⟩

/-- C8: on every rotation variant, to_euler validates the units string
case-insensitively — it raises the assert usage error exactly when the
lowercased units is neither rad nor deg — and the uppercase spellings RAD
and DEG produce exactly the results of rad and deg. -/
theorem to_euler_units_case_insensitive :
    (∀ (self : RotationEulerRadians) (u : String),
      isErr (self.to_euler u) = true ↔
        ¬(pyLower u = "rad" ∨ pyLower u = "deg")) ∧
    (∀ self : RotationEulerRadians, self.to_euler "RAD" = self.to_euler "rad") ∧
    (∀ self : RotationEulerRadians, self.to_euler "DEG" = self.to_euler "deg") ∧
    (∀ (self : RotationEulerDegrees) (u : String),
      isErr (self.to_euler u) = true ↔
        ¬(pyLower u = "rad" ∨ pyLower u = "deg")) ∧
    (∀ self : RotationEulerDegrees, self.to_euler "RAD" = self.to_euler "rad") ∧
    (∀ self : RotationEulerDegrees, self.to_euler "DEG" = self.to_euler "deg") ∧
    (∀ (prim : RotationQuaternion → ℝ × ℝ × ℝ) (self : RotationQuaternion)
      (u : String),
      isErr (RotationQuaternion.to_euler prim self u) = true ↔
        ¬(pyLower u = "rad" ∨ pyLower u = "deg")) ∧
    (∀ (prim : RotationQuaternion → ℝ × ℝ × ℝ) (self : RotationQuaternion),
      RotationQuaternion.to_euler prim self "RAD" =
        RotationQuaternion.to_euler prim self "rad") ∧
    (∀ (prim : RotationQuaternion → ℝ × ℝ × ℝ) (self : RotationQuaternion),
      RotationQuaternion.to_euler prim self "DEG" =
        RotationQuaternion.to_euler prim self "deg") := by
  have hrad : pyLower "RAD" = "rad" := by decide
  have hr : pyLower "rad" = "rad" := by decide
  have hdeg : pyLower "DEG" = "deg" := by decide
  have hd : pyLower "deg" = "deg" := by decide
  refine ⟨?_, ?_, ?_, ?_, ?_, ?_, ?_, ?_, ?_⟩
  · intro self u
    simp only [RotationEulerRadians.to_euler]
    by_cases h : pyLower u = "rad" ∨ pyLower u = "deg"
    · rw [if_pos h]
      by_cases h2 : pyLower u = "rad"
      · rw [if_pos h2]; simp [isErr, h]
      · rw [if_neg h2]; simp [isErr, h]
    · rw [if_neg h]; simp [isErr, h]
  · intro self
    simp only [RotationEulerRadians.to_euler, hrad, hr]
  · intro self
    simp only [RotationEulerRadians.to_euler, hdeg, hd]
  · intro self u
    simp only [RotationEulerDegrees.to_euler, RotationEulerRadians.to_euler]
    by_cases h : pyLower u = "rad" ∨ pyLower u = "deg"
    · rw [if_pos h]
      by_cases h2 : pyLower u = "rad"
      · rw [if_pos h2]; simp [isErr, h]
      · rw [if_neg h2]; simp [isErr, h]
    · rw [if_neg h]; simp [isErr, h]
  · intro self
    simp only [RotationEulerDegrees.to_euler, RotationEulerRadians.to_euler,
      hrad, hr]
  · intro self
    simp only [RotationEulerDegrees.to_euler, RotationEulerRadians.to_euler,
      hdeg, hd]
  · intro prim self u
    simp only [RotationQuaternion.to_euler]
    by_cases h : pyLower u = "rad" ∨ pyLower u = "deg"
    · rw [if_pos h]
      by_cases h2 : pyLower u = "rad"
      · rw [if_pos h2]; simp [isErr, h]
      · rw [if_neg h2]; simp [isErr, h]
    · rw [if_neg h]; simp [isErr, h]
  · intro prim self
    simp only [RotationQuaternion.to_euler, hrad, hr]
  · intro prim self
    simp only [RotationQuaternion.to_euler, hdeg, hd]

/-! ## Object identity of conversions (C4)

Python objects are mutable and passed by reference, so whether a conversion
returns a new instance or the receiver itself is observable through
mutation. The store model makes identity explicit: a reference is an index
into a list of live objects, a conversion maps a receiver reference and a
store to a result reference and a store. A method body of the form
return self (source lines 84-85, 122-123, 150-151) keeps the reference; a
body that calls a constructor (such as line 88) allocates. -/

/-- A live object of the module: its component array and, for the Euler
variants, its axes spec. -/
inductive PyObj where
  | eulerRad (arr : List ℝ) (axes : String)
  | eulerDeg (arr : List ℝ) (axes : String)
  | quat (arr : List ℝ)

/-- The component array of an object. -/
def PyObj.arr : PyObj → List ℝ
  | .eulerRad a _ => a
  | .eulerDeg a _ => a
  | .quat a => a

/-- The same object with its component array replaced. -/
def PyObj.withArr : PyObj → List ℝ → PyObj
  | .eulerRad _ ax, a => .eulerRad a ax
  | .eulerDeg _ ax, a => .eulerDeg a ax
  | .quat _, a => .quat a

/-- A reference to a live object. -/
abbrev Ref := ℕ

/-- The store of live objects; a reference is a position in the list. -/
structure Store where
  objs : List PyObj

/-- Allocation: a fresh reference to a new object. -/
def Store.alloc (s : Store) (o : PyObj) : Ref × Store :=
  (s.objs.length, ⟨s.objs ++ [o]⟩)

/-- The component i of the object at reference r, when both exist. -/
def Store.getComp (s : Store) (r : Ref) (i : ℕ) : Option ℝ :=
  s.objs[r]?.bind (fun o => o.arr[i]?)

/-- An in-place write of component i of the object at reference r (a named
setter or an index assignment on that object). -/
def Store.setComp (s : Store) (r : Ref) (i : ℕ) (v : ℝ) : Store :=
  match s.objs[r]? with
  | none => s
  | some o => ⟨s.objs.set r (o.withArr (o.arr.set i v))⟩

/-- Source lines 84-85 at the store level: to_radians on a radians receiver
returns self — the same reference, no allocation. -/
def toRadiansOnRadians (r : Ref) (s : Store) : Ref × Store := (r, s)

/-- Source lines 122-123 at the store level: to_degrees on a degrees
receiver returns self. -/
def toDegreesOnDegrees (r : Ref) (s : Store) : Ref × Store := (r, s)

/-- Source lines 150-151 at the store level: to_quaternion on a quaternion
receiver returns self. -/
def toQuaternionOnQuaternion (r : Ref) (s : Store) : Ref × Store := (r, s)

/-- Source lines 87-88 at the store level: to_degrees on a radians receiver
builds RotationEulerDegrees(*np.degrees(self._array), axes=self.axes) — a
fresh allocation. Defined for stores whose reference holds a radians object;
the other branches are unreachable through the class interface. -/
noncomputable def toDegreesOnRadians (r : Ref) (s : Store) : Ref × Store :=
  match s.objs[r]? with
  | some (.eulerRad a ax) => s.alloc (.eulerDeg (a.map np_degrees) ax)
  | _ => (r, s)

/-- C4 (counterexample): the three identity conversions do not return an
independent instance. Starting from a store with one radians rotation with
components (1, 2, 3), binding b = a.to_radians() and writing 99 into the x
component of b changes the x component of the receiver a from 1 to 99. -/
theorem to_radians_aliases_receiver :
    Store.getComp
      (Store.setComp
        (toRadiansOnRadians 0 ⟨[PyObj.eulerRad [1, 2, 3] "rxyz"]⟩).2
        (toRadiansOnRadians 0 ⟨[PyObj.eulerRad [1, 2, 3] "rxyz"]⟩).1 0 99)
      0 0 = some 99 ∧
    Store.getComp (⟨[PyObj.eulerRad [1, 2, 3] "rxyz"]⟩ : Store) 0 0 = some 1 ∧
    (99 : ℝ) ≠ 1 :=
  ⟨rfl, rfl, by norm_num⟩

/-- C4 (amended): conversions that change representation allocate a new
instance independent of the receiver — mutating the fresh instance leaves
every component of the receiver unchanged — but the three identity
conversions (to_radians on radians, to_degrees on degrees, to_quaternion on
quaternion) return the receiver itself, so mutations of the returned
instance are mutations of the receiver. -/
theorem identity_conversions_return_self :
    (∀ (r : Ref) (s : Store), toRadiansOnRadians r s = (r, s)) ∧
    (∀ (r : Ref) (s : Store), toDegreesOnDegrees r s = (r, s)) ∧
    (∀ (r : Ref) (s : Store), toQuaternionOnQuaternion r s = (r, s)) ∧
    (∀ (s : Store) (r : Ref) (a : List ℝ) (ax : String),
      s.objs[r]? = some (.eulerRad a ax) →
        (toDegreesOnRadians r s).1 ≠ r ∧
        (∀ (i : ℕ) (v : ℝ) (j : ℕ),
          Store.getComp
            (Store.setComp (toDegreesOnRadians r s).2
              (toDegreesOnRadians r s).1 i v) r j =
            Store.getComp s r j)) := by
  refine ⟨fun _ _ => rfl, fun _ _ => rfl, fun _ _ => rfl, ?_⟩
  intro s r a ax h
  have hr : r < s.objs.length := (List.getElem?_eq_some_iff.mp h).1
  have hstep : toDegreesOnRadians r s =
      (s.objs.length, ⟨s.objs ++ [PyObj.eulerDeg (a.map np_degrees) ax]⟩) := by
    unfold toDegreesOnRadians
    rw [h]
    rfl
  constructor
  · rw [hstep]
    exact (Nat.ne_of_lt hr).symm
  · intro i v j
    rw [hstep]
    show Store.getComp
      (Store.setComp ⟨s.objs ++ [PyObj.eulerDeg (a.map np_degrees) ax]⟩
        s.objs.length i v) r j = Store.getComp s r j
    rw [Store.setComp]
    rw [List.getElem?_concat_length]
    show Store.getComp
      ⟨(s.objs ++ [PyObj.eulerDeg (a.map np_degrees) ax]).set s.objs.length _⟩
      r j = Store.getComp s r j
    rw [Store.getComp, Store.getComp]
    have h1 : ((s.objs ++ [PyObj.eulerDeg (a.map np_degrees) ax]).set
        s.objs.length ((PyObj.eulerDeg (a.map np_degrees) ax).withArr
          (((PyObj.eulerDeg (a.map np_degrees) ax).arr).set i v)))[r]? =
        s.objs[r]? := by
      rw [List.getElem?_set_ne (Nat.ne_of_lt hr).symm,
        List.getElem?_append_left hr]
    exact congrArg (fun o => Option.bind o (fun o => o.arr[j]?)) h1

/-! ## Scale (source lines 199-211) -/

/-- Source lines 206-207: to_matrix of a Scale is np.diag((sx, sy, sz, 1)). -/
def Scale.to_matrix (s : V3) : M4 :=
  ⟨s.x, 0, 0, 0, 0, s.y, 0, 0, 0, 0, s.z, 0, 0, 0, 0, 1⟩

/-- Source lines 209-211: from_matrix recovers the per-axis scale as
np.linalg.norm(matrix[:3, :3], axis=0) — the Euclidean norm of each column
of the top-left 3x3 block. -/
noncomputable def Scale.from_matrix (m : M4) : V3 :=
  ⟨Real.sqrt (m.m00 ^ 2 + m.m10 ^ 2 + m.m20 ^ 2),
   Real.sqrt (m.m01 ^ 2 + m.m11 ^ 2 + m.m21 ^ 2),
   Real.sqrt (m.m02 ^ 2 + m.m12 ^ 2 + m.m22 ^ 2)⟩

/-- C10: Scale.from_matrix yields the column norms of the top-left 3x3
block, which are always nonnegative; hence a Scale with a negative component
does not round-trip through to_matrix and from_matrix: (-2, 1, 1) comes back
as (2, 1, 1), a different value. -/
theorem scale_from_matrix_nonneg_no_roundtrip :
    (∀ m : M4, 0 ≤ (Scale.from_matrix m).x ∧ 0 ≤ (Scale.from_matrix m).y ∧
      0 ≤ (Scale.from_matrix m).z) ∧
    Scale.from_matrix (Scale.to_matrix ⟨-2, 1, 1⟩) = ⟨2, 1, 1⟩ ∧
    (⟨2, 1, 1⟩ : V3) ≠ ⟨-2, 1, 1⟩ := by
  refine ⟨fun m => ⟨Real.sqrt_nonneg _, Real.sqrt_nonneg _, Real.sqrt_nonneg _⟩,
    ?_, ?_⟩
  · show Scale.from_matrix ⟨-2, 0, 0, 0, 0, 1, 0, 0, 0, 0, 1, 0, 0, 0, 0, 1⟩ =
      ⟨2, 1, 1⟩
    unfold Scale.from_matrix
    rw [V3.mk.injEq]
    refine ⟨?_, ?_, ?_⟩
    · rw [show ((-2 : ℝ)) ^ 2 + (0 : ℝ) ^ 2 + (0 : ℝ) ^ 2 = 2 ^ 2 by norm_num,
        Real.sqrt_sq (by norm_num : (0 : ℝ) ≤ 2)]
    · rw [show (0 : ℝ) ^ 2 + (1 : ℝ) ^ 2 + (0 : ℝ) ^ 2 = 1 by norm_num,
        Real.sqrt_one]
    · rw [show (0 : ℝ) ^ 2 + (0 : ℝ) ^ 2 + (1 : ℝ) ^ 2 = 1 by norm_num,
        Real.sqrt_one]
  · intro heq
    rw [V3.mk.injEq] at heq
    have : (2 : ℝ) = -2 := heq.1
    norm_num at this

/-! ## Vector utilities (source lines 215-235) -/

/-- The dot product of two 3-vectors, np.dot. -/
def V3.dot (a b : V3) : ℝ := a.x * b.x + a.y * b.y + a.z * b.z

/-- The Euclidean norm of a 3-vector, np.linalg.norm. -/
noncomputable def V3.norm (v : V3) : ℝ := Real.sqrt (v.dot v)

/-- The normalization vec / np.linalg.norm(vec) from source line 227. -/
noncomputable def V3.normalize (v : V3) : V3 :=
  ⟨v.x / v.norm, v.y / v.norm, v.z / v.norm⟩

/-- The cross product of two 3-vectors, np.cross. -/
def V3.cross (a b : V3) : V3 :=
  ⟨a.y * b.z - a.z * b.y, a.z * b.x - a.x * b.z, a.x * b.y - a.y * b.x⟩

/-- Source lines 215-219: the skew-symmetric cross-product matrix of a
3-element vector. -/
def cross_product_matrix (v : V3) : M3 :=
  ⟨0, -v.z, v.y, v.z, 0, -v.x, -v.y, v.x, 0⟩

/-- Source lines 222-235: normalize both inputs, form their cross product v
and dot product cos; raise ValueError when cos == -1; otherwise return
np.identity(3) + v_cpm + np.dot(v_cpm, v_cpm) * (1. / 1. + cos), with the
scaling factor written exactly as the source combines it. -/
noncomputable def rotation_matrix_between_vectors (fromVec toVec : V3) :
    Except String M3 :=
  let a := fromVec.normalize
  let b := toVec.normalize
  let v := a.cross b
  let cos := a.dot b
  if cos = -1 then .error "Orientation in complete opposite direction"
  else
    let v_cpm := cross_product_matrix v
    .ok (1 + v_cpm + (1 / 1 + cos) • (v_cpm * v_cpm))

/-- The unit vector along x normalizes to itself. -/
theorem normalize_unit_x : (⟨1, 0, 0⟩ : V3).normalize = ⟨1, 0, 0⟩ := by
  simp only [V3.normalize, V3.norm, V3.dot, V3.mk.injEq]
  norm_num [Real.sqrt_one]

/-- The negated unit vector along x normalizes to itself. -/
theorem normalize_neg_unit_x : (⟨-1, 0, 0⟩ : V3).normalize = ⟨-1, 0, 0⟩ := by
  simp only [V3.normalize, V3.norm, V3.dot, V3.mk.injEq]
  norm_num [Real.sqrt_one]

/-- The unit vector along y normalizes to itself. -/
theorem normalize_unit_y : (⟨0, 1, 0⟩ : V3).normalize = ⟨0, 1, 0⟩ := by
  simp only [V3.normalize, V3.norm, V3.dot, V3.mk.injEq]
  norm_num [Real.sqrt_one]

/-- C6: rotation_matrix_between_vectors raises its domain error exactly when
the dot product of the two normalized inputs is -1 (exactly opposite unit
vectors), and in particular it raises, returning no matrix, on the inputs
(1, 0, 0) and (-1, 0, 0). -/
theorem rotation_between_error_iff_opposite :
    (∀ fromVec toVec : V3,
      isErr (rotation_matrix_between_vectors fromVec toVec) = true ↔
        fromVec.normalize.dot toVec.normalize = -1) ∧
    rotation_matrix_between_vectors ⟨1, 0, 0⟩ ⟨-1, 0, 0⟩ =
      .error "Orientation in complete opposite direction" := by
  constructor
  · intro f t
    simp only [rotation_matrix_between_vectors]
    by_cases h : f.normalize.dot t.normalize = -1
    · rw [if_pos h]; simp [isErr, h]
    · rw [if_neg h]; simp [isErr, h]
  · have hc : (⟨1, 0, 0⟩ : V3).normalize.dot (⟨-1, 0, 0⟩ : V3).normalize = -1 := by
      rw [normalize_unit_x, normalize_neg_unit_x]
      simp only [V3.dot]
      norm_num
    simp only [rotation_matrix_between_vectors]
    rw [if_pos hc]

/-- C7: away from the degenerate case, the function returns exactly the
literal formula of the source, I + skew(v) + skew(v) * skew(v) scaled by
(1 + cos): the Python expression (1. / 1. + cos) evaluates to 1 + cos, so
the scaling term multiplies by (1 + cos) rather than dividing by it. -/
theorem rotation_between_literal_formula (fromVec toVec : V3)
    (h : fromVec.normalize.dot toVec.normalize ≠ -1) :
    rotation_matrix_between_vectors fromVec toVec =
      .ok (1 + cross_product_matrix (fromVec.normalize.cross toVec.normalize) +
        (1 + fromVec.normalize.dot toVec.normalize) •
          (cross_product_matrix (fromVec.normalize.cross toVec.normalize) *
            cross_product_matrix (fromVec.normalize.cross toVec.normalize))) := by
  simp only [rotation_matrix_between_vectors]
  rw [if_neg h, one_div_one]

/-- C7 (witness): at the concrete non-opposite inputs (1, 0, 0) and
(0, 1, 0) the hypothesis holds and the returned matrix is the literal
formula. -/
theorem rotation_between_literal_formula_witness :
    (⟨1, 0, 0⟩ : V3).normalize.dot (⟨0, 1, 0⟩ : V3).normalize ≠ -1 ∧
    rotation_matrix_between_vectors ⟨1, 0, 0⟩ ⟨0, 1, 0⟩ =
      .ok (1 + cross_product_matrix
          ((⟨1, 0, 0⟩ : V3).normalize.cross (⟨0, 1, 0⟩ : V3).normalize) +
        (1 + (⟨1, 0, 0⟩ : V3).normalize.dot (⟨0, 1, 0⟩ : V3).normalize) •
          (cross_product_matrix
              ((⟨1, 0, 0⟩ : V3).normalize.cross (⟨0, 1, 0⟩ : V3).normalize) *
            cross_product_matrix
              ((⟨1, 0, 0⟩ : V3).normalize.cross (⟨0, 1, 0⟩ : V3).normalize))) := by
  have h : (⟨1, 0, 0⟩ : V3).normalize.dot (⟨0, 1, 0⟩ : V3).normalize ≠ -1 := by
    rw [normalize_unit_x, normalize_unit_y]
    simp only [V3.dot]
    norm_num
  exact ⟨h, rotation_between_literal_formula _ _ h⟩

end Ratcave
